import Mathlib

/-!
Shallow embedding of the session-management and breakpoint logic of
mcp-dap-server (`tools.go`).  Each MCP tool handler of `debuggerSession`
is translated into a pure Lean function over an explicit session state.
The DAP client (`DAPClient`, a separate file of the repository) performs
the wire I/O; every round trip through it is modelled by an environment
value that records the outcome the wire would have produced (success, an
adapter failure message, or a transport error), so the handlers' control
flow can be followed exactly while the wire stays abstract.  The visible
effects of a handler are collected as a trace of `Action`s (requests sent
and process operations performed), mirroring each `ds.client.*Request`,
`exec.Command`/`Start`/`Kill` call in source order.  String literals
follow the Go sources, with apostrophe quotation marks inside messages
elided.
-/

namespace McpDap

/-- A spawned subprocess handle (`*exec.Cmd`).  `procStarted` mirrors
`cmd.Process != nil`: it becomes true only once `Start` has succeeded.
`procId` distinguishes one spawned process from another. -/
structure Subproc where
  procId : Nat
  procStarted : Bool
  deriving DecidableEq

/-- The `debuggerSession` struct (tools.go:17-23): subprocess handle,
DAP client presence (`client != nil`), and the stored launch data. -/
structure DebuggerSession where
  cmd : Option Subproc
  client : Bool
  launchMode : String
  programPath : String
  programArgs : List String
  deriving DecidableEq

/-- The payload of `RestartRequest` built in `restartDebugger`
(tools.go:370-377): the nested "arguments" map. -/
structure RestartPayload where
  request : String
  mode : String
  stopOnEntry : Bool
  args : List String
  rebuild : Bool
  deriving DecidableEq

/-- One externally visible effect of a handler: a DAP request sent
through the client, or a process-level operation. -/
inductive Action where
  | spawnDlv (procId : Nat) (port : String)
  | connectClient (addr : String)
  | handshake
  | launchReq (mode : String) (path : String) (stopOnEntry : Bool) (args : List String)
  | attachReq (mode : String) (processId : Int)
  | setBreakpoints (file : String) (lines : List Int)
  | setFunctionBreakpoints (funcs : List String)
  | configurationDone
  | resume (threadId : Int)
  | stackTrace (threadId startFrame maxFrames : Int)
  | scopesReq (frameId : Int)
  | variablesReq (varRef : Int)
  | terminateReq
  | disconnectReq (killDebuggee : Bool)
  | killProc (procId : Nat)
  | restartReq (payload : RestartPayload)
  deriving DecidableEq

/-- The value a handler returns to the MCP layer: a text result, a
delegation to `getFullContext` with the given arguments (the handler
returns whatever that call returns), or an error. -/
inductive Result where
  | ok (text : String)
  | fullContext (threadId frameId maxFrames : Int)
  | err (msg : String)
  deriving DecidableEq

/-- `BreakpointSpec` (tools.go:95-99). -/
structure BreakpointSpec where
  file : String
  line : Int
  function : String
  deriving DecidableEq

/-- `DebugParams` (tools.go:102-110). -/
structure DebugParams where
  mode : String
  path : String
  args : List String
  processId : Int
  breakpoints : List BreakpointSpec
  stopOnEntry : Bool
  port : String
  deriving DecidableEq

/-- `ContinueParams` (tools.go:203-206); `toTarget` is the `To` field,
a nil-able pointer (`to` is reserved in Lean). -/
structure ContinueParams where
  threadId : Int
  toTarget : Option BreakpointSpec
  deriving DecidableEq

/-- `ClearBreakpointsParams` (tools.go:159-162). -/
structure ClearBreakpointsParams where
  file : String
  all : Bool
  deriving DecidableEq

/-- `BreakpointToolParams` (tools.go:131-135). -/
structure BreakpointToolParams where
  file : String
  line : Int
  function : String
  deriving DecidableEq

/-- `RestartParams` (tools.go:361-363); a nil slice is the empty list. -/
structure RestartParams where
  args : List String
  deriving DecidableEq

/-- Short-circuit on a failed I/O step: `e = some m` is the Go
`if err != nil { return nil, err }` path, returning the state and trace
accumulated so far; `none` continues with `k`. -/
def orFail (e : Option String) (ds : DebuggerSession) (tr : List Action)
    (k : Unit → DebuggerSession × List Action × Result) :
    DebuggerSession × List Action × Result :=
  match e with
  | some m => (ds, tr, Result.err m)
  | none => k ()

/-- Port normalization at the top of `debug` (tools.go:528-534). -/
def debugPort (p : String) : String :=
  let q := if p = "" then "9090" else p
  if q.startsWith ":" then q else ":" ++ q

/-- The launch/attach request `debug` sends per mode (tools.go:594-608),
with the effective stop-on-entry flag of line 594. -/
def debugLaunchAction (p : DebugParams) : Action :=
  let s := p.stopOnEntry || p.breakpoints.isEmpty
  if p.mode = "source" then Action.launchReq "debug" p.path s p.args
  else if p.mode = "binary" then Action.launchReq "exec" p.path s p.args
  else Action.attachReq "local" p.processId

/-- Wire outcomes for the `debug` handler, one per I/O step of
tools.go:557-658 in source order.  `some m` means that step failed (a
send error, a read error, or an unsuccessful response, whichever the
step checks) and the handler returns `Result.err m` there; `none` means
the step succeeded.  `bpErrs` pairs the i-th supplied breakpoint with
the outcome of applying it; a missing entry counts as success.
`newProcId` identifies the dlv subprocess this call spawns.  A `none`
value for `resumeErr` means the wait loop of lines 646-655 ended with a
Stopped or Terminated event. -/
structure DebugEnv where
  newProcId : Nat
  stdoutPipeErr : Option String
  startErr : Option String
  readyErr : Option String
  handshakeErr : Option String
  launchErr : Option String
  bpErrs : List (Option String)
  configErr : Option String
  resumeErr : Option String
  deriving DecidableEq

/-- The breakpoint-application loop of `debug` (tools.go:614-630): a
function breakpoint sends the one function name, a file breakpoint with
a positive line sends the one line, anything else is skipped; the first
failing step aborts the handler.  One outcome is consumed per supplied
breakpoint. -/
def debugBpLoop : List BreakpointSpec → List (Option String) → List Action × Option String
  | [], _ => ([], none)
  | bp :: rest, errs =>
    if bp.function ≠ "" then
      match errs.headD none with
      | some m => ([Action.setFunctionBreakpoints [bp.function]], some m)
      | none =>
        let r := debugBpLoop rest errs.tail
        (Action.setFunctionBreakpoints [bp.function] :: r.1, r.2)
    else if bp.file ≠ "" ∧ bp.line > 0 then
      match errs.headD none with
      | some m => ([Action.setBreakpoints bp.file [bp.line]], some m)
      | none =>
        let r := debugBpLoop rest errs.tail
        (Action.setBreakpoints bp.file [bp.line] :: r.1, r.2)
    else
      debugBpLoop rest errs.tail

/-- The `debug` handler (tools.go:526-666).  Returns the session state
as left by the handler, the trace of actions performed, and the result.
Validation (lines 537-554) happens before any I/O; the subprocess
handle is stored at line 557 before `Start`, the client at line 580,
and the launch data at lines 589-591 — each therefore survives a
failure of a later step. -/
def debug (ds : DebuggerSession) (p : DebugParams) (env : DebugEnv) :
    DebuggerSession × List Action × Result :=
  let port := debugPort p.port
  if ¬(p.mode = "source" ∨ p.mode = "binary" ∨ p.mode = "attach") then
    (ds, [], Result.err ("invalid mode: " ++ p.mode ++ " (must be source, binary, or attach)"))
  else if p.mode = "attach" ∧ p.processId = 0 then
    (ds, [], Result.err "processId is required for attach mode")
  else if p.mode ≠ "attach" ∧ p.path = "" then
    (ds, [], Result.err ("path is required for " ++ p.mode ++ " mode"))
  else
    let ds1 := { ds with cmd := some ⟨env.newProcId, false⟩ }
    orFail env.stdoutPipeErr ds1 [] fun _ =>
    orFail env.startErr ds1 [Action.spawnDlv env.newProcId port] fun _ =>
    let ds2 := { ds1 with cmd := some ⟨env.newProcId, true⟩ }
    let tr1 := [Action.spawnDlv env.newProcId port]
    orFail env.readyErr ds2 tr1 fun _ =>
    let ds3 := { ds2 with client := true }
    let tr2 := tr1 ++ [Action.connectClient ("localhost" ++ port), Action.handshake]
    orFail env.handshakeErr ds3 tr2 fun _ =>
    let ds4 := { ds3 with launchMode := p.mode, programPath := p.path, programArgs := p.args }
    let tr3 := tr2 ++ [debugLaunchAction p]
    orFail env.launchErr ds4 tr3 fun _ =>
    let bpr := debugBpLoop p.breakpoints env.bpErrs
    let tr4 := tr3 ++ bpr.1
    orFail bpr.2 ds4 tr4 fun _ =>
    let tr5 := tr4 ++ [Action.configurationDone]
    orFail env.configErr ds4 tr5 fun _ =>
    if p.breakpoints ≠ [] ∧ ¬p.stopOnEntry then
      let tr6 := tr5 ++ [Action.resume 0]
      orFail env.resumeErr ds4 tr6 fun _ =>
      (ds4, tr6, Result.fullContext 1 0 20)
    else
      (ds4, tr5, Result.ok ("Debug session started for " ++ p.path ++
        ". Use breakpoint to set breakpoints and continue to run."))

/-- The `stop` handler ignores every failure of its teardown steps
(tools.go:491-509 only log); the fields record those failures to state
that the result does not depend on them. -/
structure StopEnv where
  terminateFails : Bool
  disconnectFails : Bool
  killFails : Bool
  deriving DecidableEq

/-- The `stop` handler (tools.go:483-522).  With neither a subprocess
handle nor a client it returns the neutral result unchanged; otherwise
it tears down whatever exists — the kill only happens when
`cmd.Process != nil`, and only then is `cmd` cleared — and resets the
launch data.  No branch returns an error. -/
def stop (ds : DebuggerSession) (env : StopEnv) :
    DebuggerSession × List Action × Result :=
  if ds.cmd = none ∧ ds.client = false then
    (ds, [], Result.ok "No debug session active")
  else
    let ds1 := if ds.client then { ds with client := false } else ds
    let tr1 := if ds.client then [Action.terminateReq, Action.disconnectReq true] else []
    let step2 : DebuggerSession × List Action :=
      match ds1.cmd with
      | some c =>
        if c.procStarted then ({ ds1 with cmd := none }, tr1 ++ [Action.killProc c.procId])
        else (ds1, tr1)
      | none => (ds1, tr1)
    let ds2 := step2.1
    let ds3 := { ds2 with launchMode := "", programPath := "", programArgs := [] }
    (ds3, step2.2, Result.ok "Debug session stopped")

/-- The `clearBreakpoints` handler (tools.go:168-200).  `funcStepErr` /
`fileStepErr` are the outcomes of the one round trip each branch makes. -/
def clearBreakpoints (ds : DebuggerSession) (p : ClearBreakpointsParams)
    (funcStepErr fileStepErr : Option String) :
    DebuggerSession × List Action × Result :=
  if ds.client = false then (ds, [], Result.err "debugger not started")
  else if p.all then
    orFail funcStepErr ds [Action.setFunctionBreakpoints []] fun _ =>
    (ds, [Action.setFunctionBreakpoints []], Result.ok "Cleared all breakpoints")
  else if p.file ≠ "" then
    orFail fileStepErr ds [Action.setBreakpoints p.file []] fun _ =>
    (ds, [Action.setBreakpoints p.file []],
      Result.ok ("Cleared breakpoints in: " ++ p.file))
  else (ds, [], Result.err "specify file or all")

/-- How the wait loop of `continueExecution` (tools.go:235-252) ends:
with an error (read failure or an unsuccessful continue response), with
a Stopped event carrying a thread id, or with a Terminated event. -/
inductive ContOutcome where
  | fail (msg : String)
  | stopped (threadId : Int)
  | terminated
  deriving DecidableEq

/-- The `continueExecution` handler (tools.go:209-253).  `toErr` is the
outcome of the temporary-breakpoint round trip (consulted only when
`toTarget` is set: the handler reads one message then even when no
request was sent); `outcome` is how the resume wait ends — a send error
of `ContinueRequest` is also a `ContOutcome.fail`. -/
def continueExecution (ds : DebuggerSession) (p : ContinueParams)
    (toErr : Option String) (outcome : ContOutcome) :
    DebuggerSession × List Action × Result :=
  if ds.client = false then (ds, [], Result.err "debugger not started")
  else
    let toTr : List Action :=
      match p.toTarget with
      | none => []
      | some t =>
        if t.function ≠ "" then [Action.setFunctionBreakpoints [t.function]]
        else if t.file ≠ "" ∧ t.line > 0 then [Action.setBreakpoints t.file [t.line]]
        else []
    match p.toTarget, toErr with
    | some _, some m => (ds, toTr, Result.err m)
    | _, _ =>
      let tr := toTr ++ [Action.resume p.threadId]
      match outcome with
      | ContOutcome.fail m => (ds, tr, Result.err m)
      | ContOutcome.stopped tid => (ds, tr, Result.fullContext tid 0 20)
      | ContOutcome.terminated => (ds, tr, Result.ok "Program terminated")

/-- The `restartDebugger` handler (tools.go:366-388).  It sends one
restart request whose payload is fixed except for the caller-supplied
`args`, then validates the response (`stepErr`).  The stored launch
data of the session is not consulted. -/
def restartDebugger (ds : DebuggerSession) (p : RestartParams)
    (stepErr : Option String) : DebuggerSession × List Action × Result :=
  if ds.client = false then (ds, [], Result.err "debugger not started")
  else
    let tr := [Action.restartReq ⟨"launch", "exec", false, p.args, false⟩]
    orFail stepErr ds tr fun _ =>
    (ds, tr, Result.ok "Restarted debugging session")

/-- One breakpoint record of a `SetBreakpointsResponse` body. -/
structure RespBp where
  id : Int
  verified : Bool
  line : Int
  message : String
  deriving DecidableEq

/-- The message the `breakpoint` handler reads after sending its
request (tools.go:893-911): a send/read error, a set-breakpoints
response with its body list, an error response, or something else. -/
inductive BpWireResult where
  | wireErr (msg : String)
  | setBpResp (bps : List RespBp)
  | errorResp (msg : String)
  | otherMsg
  deriving DecidableEq

/-- The `breakpoint` handler (tools.go:868-914).  `funcErr` is the
outcome of the function-breakpoint round trip; `wire` is what the
file-breakpoint path reads back. -/
def breakpoint (ds : DebuggerSession) (p : BreakpointToolParams)
    (funcErr : Option String) (wire : BpWireResult) :
    DebuggerSession × List Action × Result :=
  if ds.client = false then (ds, [], Result.err "debugger not started")
  else if p.function ≠ "" then
    orFail funcErr ds [Action.setFunctionBreakpoints [p.function]] fun _ =>
    (ds, [Action.setFunctionBreakpoints [p.function]],
      Result.ok ("Breakpoint set on function: " ++ p.function))
  else if p.file = "" ∨ p.line = 0 then
    (ds, [], Result.err "either function or file+line is required")
  else
    let tr := [Action.setBreakpoints p.file [p.line]]
    match wire with
    | BpWireResult.wireErr m => (ds, tr, Result.err m)
    | BpWireResult.setBpResp bps =>
      match bps with
      | [] => (ds, tr, Result.err "unexpected response")
      | bp :: _ =>
        if bp.verified then
          (ds, tr, Result.ok ("Breakpoint " ++ toString bp.id ++ " set at " ++
            p.file ++ ":" ++ toString bp.line))
        else (ds, tr, Result.err ("breakpoint not verified: " ++ bp.message))
    | BpWireResult.errorResp m => (ds, tr, Result.err m)
    | BpWireResult.otherMsg => (ds, tr, Result.err "unexpected response")

/-- A DAP stack frame as `getFullContext` reads it: `sourcePath` is
`Source.Path` when `Source != nil`. -/
structure StackFrame where
  id : Int
  name : String
  sourcePath : Option String
  line : Int
  presentationHint : String
  deriving DecidableEq

/-- A DAP scope: its display name and variables container reference. -/
structure Scope where
  name : String
  variablesReference : Int
  deriving DecidableEq

/-- One variable of a `VariablesResponse`. -/
structure VarInfo where
  name : String
  type : String
  value : String
  deriving DecidableEq

/-- One semantic unit of the text snapshot `getFullContext` renders;
each constructor stands for one `WriteString` block of
tools.go:766-857 in order. -/
inductive OutLine where
  | currentLocation (function : String) (loc : Option (String × Int))
  | stackHeader
  | frameLine (idx : Nat) (frameId : Int) (name : String)
      (at_ : Option (String × Int)) (runtimeHint : Bool)
  | variablesHeader
  | scopesUnavailable
  | scopeHeader (name : String)
  | varsUnavailable
  | varLine (name type value : String)
  deriving DecidableEq

/-- How the stack-trace round trip ends (tools.go:740-762): every
failure — send error, read error, unsuccessful response, unexpected
message type — aborts the whole snapshot. -/
inductive StackOutcome where
  | fatal (msg : String)
  | ok (frames : List StackFrame)
  deriving DecidableEq

/-- How the scopes round trip ends (tools.go:796-821): a send error,
read error or unexpected message type is fatal; an unsuccessful
`ScopesResponse` (`respFail`) degrades to an unavailable marker. -/
inductive ScopesOutcome where
  | fatal (msg : String)
  | respFail (msg : String)
  | ok (scopes : List Scope)
  deriving DecidableEq

/-- The result of the snapshot aggregation: a fatal error, or the
rendered snapshot. -/
inductive CtxResult where
  | fatal (msg : String)
  | snapshot (outLines : List OutLine)
  deriving DecidableEq

/-- Environment of one `getFullContext` call.  `vars` pairs the i-th
scope with the outcome of its variables round trip — `none` for any of
the four failure modes of tools.go:829-850 (send error, read error,
unexpected type, unsuccessful response), all of which write the
per-scope marker and move on; an entry is ignored for a scope whose
`variablesReference` is not positive (no request is made). -/
structure CtxEnv where
  stack : StackOutcome
  scopes : ScopesOutcome
  vars : List (Option (List VarInfo))
  deriving DecidableEq

/-- The attribution of a frame line (tools.go:780-782): shown only when
the frame has a source with a nonempty path. -/
def frameAt (fr : StackFrame) : Option (String × Int) :=
  match fr.sourcePath with
  | some p => if p ≠ "" then some (p, fr.line) else none
  | none => none

/-- The stack-trace section (tools.go:777-787), one line per frame. -/
def frameLines (frames : List StackFrame) : List OutLine :=
  frames.enum.map fun pr =>
    OutLine.frameLine pr.1 pr.2.id pr.2.name (frameAt pr.2)
      (pr.2.presentationHint = "subtle")

/-- The location and stack sections (tools.go:766-788): the current
location is printed only when at least one frame exists, the stack
header always. -/
def locStackOut (frames : List StackFrame) : List OutLine :=
  (match frames with
   | [] => []
   | top :: _ =>
     [OutLine.currentLocation top.name (top.sourcePath.map fun p => (p, top.line))]) ++
  OutLine.stackHeader :: frameLines frames

/-- The per-scope variables loop of `getFullContext` (tools.go:826-859):
for each scope a header; when its container reference is positive, one
variables request whose failure writes the marker for that scope only.
One `vars` outcome is consumed per scope. -/
def renderScopes : List Scope → List (Option (List VarInfo)) → List Action × List OutLine
  | [], _ => ([], [])
  | s :: rest, vouts =>
    let r := renderScopes rest vouts.tail
    if s.variablesReference > 0 then
      match vouts.headD none with
      | none =>
        (Action.variablesReq s.variablesReference :: r.1,
         OutLine.scopeHeader s.name :: OutLine.varsUnavailable :: r.2)
      | some vs =>
        (Action.variablesReq s.variablesReference :: r.1,
         OutLine.scopeHeader s.name ::
           (vs.map fun v => OutLine.varLine v.name v.type v.value) ++ r.2)
    else (r.1, OutLine.scopeHeader s.name :: r.2)

/-- `getFullContext` (tools.go:732-865): the snapshot aggregation.
A stack-trace failure is fatal; a scopes response failure is recorded as
a marker while the stack sections are still returned; a variables
failure marks only its own scope.  The focus frame is the explicit
`frameID`, or the top frame when `frameID` is 0 and frames exist. -/
def getFullContext (clientPresent : Bool) (threadID frameID maxFrames : Int)
    (env : CtxEnv) : List Action × CtxResult :=
  if clientPresent = false then ([], CtxResult.fatal "debugger not started")
  else
    let tr0 := [Action.stackTrace threadID 0 maxFrames]
    match env.stack with
    | StackOutcome.fatal e => (tr0, CtxResult.fatal e)
    | StackOutcome.ok frames =>
      let out0 := locStackOut frames
      let targetFrameID :=
        match frames with
        | [] => frameID
        | top :: _ => if frameID = 0 then top.id else frameID
      let tr1 := tr0 ++ [Action.scopesReq targetFrameID]
      match env.scopes with
      | ScopesOutcome.fatal e => (tr1, CtxResult.fatal e)
      | ScopesOutcome.respFail _ =>
        (tr1, CtxResult.snapshot
          (out0 ++ [OutLine.variablesHeader, OutLine.scopesUnavailable]))
      | ScopesOutcome.ok scopes =>
        match scopes with
        | [] => (tr1, CtxResult.snapshot out0)
        | _ :: _ =>
          let rv := renderScopes scopes env.vars
          (tr1 ++ rv.1, CtxResult.snapshot (out0 ++ OutLine.variablesHeader :: rv.2))

/-- Replace-on-set semantics of the adapter's per-file breakpoint
tables: a set-breakpoints request for file `f` replaces `f`'s whole
table with the request's line list; every other action leaves the
tables alone. -/
def applyAction (t : String → List Int) : Action → (String → List Int)
  | Action.setBreakpoints f lines => fun g => if g = f then lines else t g
  | _ => t

/-- The file-breakpoint tables after a trace of actions. -/
def applyTrace (t : String → List Int) : List Action → (String → List Int)
  | [] => t
  | a :: rest => applyTrace (applyAction t a) rest

/-- Replace-on-set semantics of the adapter's single function-breakpoint
table. -/
def applyFnAction (t : List String) : Action → List String
  | Action.setFunctionBreakpoints fs => fs
  | _ => t

/-- The function-breakpoint table after a trace of actions. -/
def applyFnTrace (t : List String) : List Action → List String
  | [] => t
  | a :: rest => applyFnTrace (applyFnAction t a) rest

/-- True of the resume (continue) request. -/
def isResume : Action → Bool
  | Action.resume _ => true
  | _ => false

/-- True of the actions that end a session or its subprocess. -/
def isTeardown : Action → Bool
  | Action.terminateReq => true
  | Action.disconnectReq _ => true
  | Action.killProc _ => true
  | _ => false

/-- At most one line per file-breakpoint request — the bound claimed of
every set-breakpoints request this server sends. -/
def smallBpReq : Action → Prop
  | Action.setBreakpoints _ lines => lines.length ≤ 1
  | _ => True

/-- The actions the breakpoint loop of `debug` emits when every step
succeeds, one request per supplied breakpoint. -/
def bpLoopActions (bps : List BreakpointSpec) : List Action :=
  bps.flatMap fun bp =>
    if bp.function ≠ "" then [Action.setFunctionBreakpoints [bp.function]]
    else if bp.file ≠ "" ∧ bp.line > 0 then [Action.setBreakpoints bp.file [bp.line]]
    else []

theorem debugBpLoop_ok (bps : List BreakpointSpec) (errs : List (Option String))
    (h : ∀ e ∈ errs, e = none) :
    debugBpLoop bps errs = (bpLoopActions bps, none) := by
  induction bps generalizing errs with
  | nil => simp [debugBpLoop, bpLoopActions]
  | cons bp rest ih =>
    have hhead : errs.headD none = none := by
      cases errs with
      | nil => rfl
      | cons a t => exact h a (List.mem_cons_self a t)
    have htail : ∀ e ∈ errs.tail, e = none := by
      cases errs with
      | nil => intro e he; cases he
      | cons a t => intro e he; exact h e (List.mem_cons_of_mem a he)
    by_cases h1 : bp.function ≠ ""
    · simp only [debugBpLoop, if_pos h1, hhead, ih errs.tail htail]
      simp [bpLoopActions, h1]
    · by_cases h2 : bp.file ≠ "" ∧ bp.line > 0
      · simp only [debugBpLoop, if_neg h1, if_pos h2, hhead, ih errs.tail htail]
        simp only [ne_eq, not_not] at h1
        simp [bpLoopActions, h1, h2]
      · simp only [debugBpLoop, if_neg h1, if_neg h2, ih errs.tail htail]
        simp only [ne_eq, not_not] at h1
        simp [bpLoopActions, h1, h2]

/-- Every action the breakpoint loop of `debug` emits, whether the loop
aborts or not, is one of the two per-breakpoint requests. -/
theorem mem_debugBpLoop (bps : List BreakpointSpec) (errs : List (Option String))
    (a : Action) (h : a ∈ (debugBpLoop bps errs).1) :
    (∃ bp ∈ bps, a = Action.setFunctionBreakpoints [bp.function]) ∨
    (∃ bp ∈ bps, bp.file ≠ "" ∧ bp.line > 0 ∧ a = Action.setBreakpoints bp.file [bp.line]) := by
  induction bps generalizing errs with
  | nil => simp [debugBpLoop] at h
  | cons bp rest ih =>
    by_cases h1 : bp.function ≠ ""
    · rcases hh : errs.headD none with _ | m
      · simp only [debugBpLoop, if_pos h1, hh] at h
        rcases List.mem_cons.mp h with rfl | h
        · exact Or.inl ⟨bp, List.mem_cons_self bp rest, rfl⟩
        · rcases ih errs.tail h with ⟨b, hb, hab⟩ | ⟨b, hb, h2, h3, hab⟩
          · exact Or.inl ⟨b, List.mem_cons_of_mem bp hb, hab⟩
          · exact Or.inr ⟨b, List.mem_cons_of_mem bp hb, h2, h3, hab⟩
      · simp only [debugBpLoop, if_pos h1, hh, List.mem_singleton] at h
        exact Or.inl ⟨bp, List.mem_cons_self bp rest, h⟩
    · by_cases h2 : bp.file ≠ "" ∧ bp.line > 0
      · rcases hh : errs.headD none with _ | m
        · simp only [debugBpLoop, if_neg h1, if_pos h2, hh] at h
          rcases List.mem_cons.mp h with rfl | h
          · exact Or.inr ⟨bp, List.mem_cons_self bp rest, h2.1, h2.2, rfl⟩
          · rcases ih errs.tail h with ⟨b, hb, hab⟩ | ⟨b, hb, h3, h4, hab⟩
            · exact Or.inl ⟨b, List.mem_cons_of_mem bp hb, hab⟩
            · exact Or.inr ⟨b, List.mem_cons_of_mem bp hb, h3, h4, hab⟩
        · simp only [debugBpLoop, if_neg h1, if_pos h2, hh, List.mem_singleton] at h
          exact Or.inr ⟨bp, List.mem_cons_self bp rest, h2.1, h2.2, h⟩
      · simp only [debugBpLoop, if_neg h1, if_neg h2] at h
        rcases ih errs.tail h with ⟨b, hb, hab⟩ | ⟨b, hb, h3, h4, hab⟩
        · exact Or.inl ⟨b, List.mem_cons_of_mem bp hb, hab⟩
        · exact Or.inr ⟨b, List.mem_cons_of_mem bp hb, h3, h4, hab⟩

/-- As `mem_debugBpLoop`, for the success-path action list. -/
theorem mem_bpLoopActions (bps : List BreakpointSpec) (a : Action)
    (h : a ∈ bpLoopActions bps) :
    (∃ bp ∈ bps, a = Action.setFunctionBreakpoints [bp.function]) ∨
    (∃ bp ∈ bps, bp.file ≠ "" ∧ bp.line > 0 ∧ a = Action.setBreakpoints bp.file [bp.line]) := by
  rw [bpLoopActions, List.mem_flatMap] at h
  obtain ⟨bp, hbp, ha⟩ := h
  by_cases h1 : bp.function ≠ ""
  · simp only [if_pos h1, List.mem_singleton] at ha
    exact Or.inl ⟨bp, hbp, ha⟩
  · by_cases h2 : bp.file ≠ "" ∧ bp.line > 0
    · simp only [if_neg h1, if_pos h2, List.mem_singleton] at ha
      exact Or.inr ⟨bp, hbp, h2.1, h2.2, ha⟩
    · simp [if_neg h1, if_neg h2] at ha

theorem applyTrace_append (t : String → List Int) (l m : List Action) :
    applyTrace t (l ++ m) = applyTrace (applyTrace t l) m := by
  induction l generalizing t with
  | nil => rfl
  | cons a rest ih => simp [applyTrace, ih]

/-- Folding the per-breakpoint requests of `debug` for one file: every
request replaces the table, so the last supplied line wins. -/
theorem applyTrace_lastWins (F : String) (hF : F ≠ "") (bps : List BreakpointSpec)
    (t : String → List Int)
    (hall : ∀ bp ∈ bps, bp.function = "" ∧ bp.file = F ∧ bp.line > 0)
    (hne : bps ≠ []) :
    applyTrace t (bpLoopActions bps) F = [(bps.getLastD ⟨"", 0, ""⟩).line] := by
  induction bps generalizing t with
  | nil => exact absurd rfl hne
  | cons bp rest ih =>
    obtain ⟨hf, hfile, hline⟩ := hall bp (List.mem_cons_self bp rest)
    have hbf : ¬bp.function ≠ "" := by simp [hf]
    have hff : bp.file ≠ "" := by rw [hfile]; exact hF
    have hstep : bpLoopActions (bp :: rest) =
        Action.setBreakpoints bp.file [bp.line] :: bpLoopActions rest := by
      simp [bpLoopActions, hf, hff, hline]
    rw [hstep]
    show applyTrace (applyAction t (Action.setBreakpoints bp.file [bp.line]))
      (bpLoopActions rest) F = _
    cases rest with
    | nil =>
      simp [bpLoopActions, applyTrace, applyAction, hfile, List.getLastD]
    | cons b2 r2 =>
      rw [ih _ (fun b hb => hall b (List.mem_cons_of_mem bp hb)) (by simp)]
      simp [List.getLastD_cons]

theorem mem_orFail {e : Option String} {ds : DebuggerSession} {tr : List Action}
    {k : Unit → DebuggerSession × List Action × Result} {a : Action}
    (h : a ∈ (orFail e ds tr k).2.1) : a ∈ tr ∨ a ∈ (k ()).2.1 := by
  cases e with
  | none => exact Or.inr h
  | some m => exact Or.inl h

set_option maxHeartbeats 3000000 in
/-- Whatever the outcomes, `debug` only ever performs the spawn, the
connect, the handshake, the one launch/attach request, the breakpoint
loop's requests, configuration-done, and at most the one resume. -/
theorem debug_trace_mem (ds : DebuggerSession) (p : DebugParams) (env : DebugEnv)
    (a : Action) (h : a ∈ (debug ds p env).2.1) :
    a = Action.spawnDlv env.newProcId (debugPort p.port) ∨
    a = Action.connectClient ("localhost" ++ debugPort p.port) ∨
    a = Action.handshake ∨ a = debugLaunchAction p ∨
    a ∈ (debugBpLoop p.breakpoints env.bpErrs).1 ∨
    a = Action.configurationDone ∨ a = Action.resume 0 := by
  obtain ⟨pid, pe, se, re, he, le, be, ce, rse⟩ := env
  unfold debug at h
  split_ifs at h with hv1 hv2 hv3 hc
  all_goals try simp only [List.not_mem_nil] at h
  all_goals (
    try dsimp only at h
    try dsimp only
    simp only [orFail] at h
    cases pe with
    | some m => simp at h
    | none =>
    cases se with
    | some m =>
      simp only [List.mem_singleton] at h
      exact Or.inl h
    | none =>
    cases re with
    | some m =>
      simp only [List.mem_singleton] at h
      exact Or.inl h
    | none =>
    cases he with
    | some m =>
      simp only [List.mem_append, List.mem_cons, List.mem_singleton,
        List.not_mem_nil, or_false] at h
      tauto
    | none =>
    cases le with
    | some m =>
      simp only [List.mem_append, List.mem_cons, List.mem_singleton,
        List.not_mem_nil, or_false] at h
      tauto
    | none =>
    rcases hbp : (debugBpLoop p.breakpoints be).2 with _ | m
    · simp only [hbp] at h
      cases ce with
      | some m =>
        simp only [List.mem_append, List.mem_cons, List.mem_singleton,
          List.not_mem_nil, or_false] at h
        tauto
      | none =>
      cases rse with
      | some m =>
        simp only [List.mem_append, List.mem_cons, List.mem_singleton,
          List.not_mem_nil, or_false] at h
        tauto
      | none =>
        simp only [List.mem_append, List.mem_cons, List.mem_singleton,
          List.not_mem_nil, or_false] at h
        tauto
    · simp only [hbp] at h
      simp only [List.mem_append, List.mem_cons, List.mem_singleton,
        List.not_mem_nil, or_false] at h
      tauto)

/-- The success path of `debug` in closed form: the state stores the
started subprocess, the connected client and the launch data; the trace
is spawn, connect, handshake, launch/attach, the per-breakpoint
requests, configuration-done, and — exactly when breakpoints were
supplied and `stopOnEntry` is false — one resume; the result is
delegation to the full-context snapshot in that same case, else the
lightweight status text. -/
theorem debug_ok_shape (ds : DebuggerSession) (p : DebugParams) (env : DebugEnv)
    (hmode : p.mode = "source" ∨ p.mode = "binary" ∨ p.mode = "attach")
    (hatt : p.mode = "attach" → p.processId ≠ 0)
    (hpath : p.mode ≠ "attach" → p.path ≠ "")
    (h1 : env.stdoutPipeErr = none) (h2 : env.startErr = none)
    (h3 : env.readyErr = none) (h4 : env.handshakeErr = none)
    (h5 : env.launchErr = none)
    (h6 : ∀ e ∈ env.bpErrs, e = none)
    (h7 : env.configErr = none) :
    debug ds p env =
      (⟨some ⟨env.newProcId, true⟩, true, p.mode, p.path, p.args⟩,
       Action.spawnDlv env.newProcId (debugPort p.port) ::
         Action.connectClient ("localhost" ++ debugPort p.port) ::
         Action.handshake :: debugLaunchAction p ::
         (bpLoopActions p.breakpoints ++ Action.configurationDone ::
           (if p.breakpoints ≠ [] ∧ ¬p.stopOnEntry then [Action.resume 0] else [])),
       if p.breakpoints ≠ [] ∧ ¬p.stopOnEntry then
         (match env.resumeErr with
          | some e => Result.err e
          | none => Result.fullContext 1 0 20)
       else Result.ok ("Debug session started for " ++ p.path ++
         ". Use breakpoint to set breakpoints and continue to run.")) := by
  have hv1 : ¬¬(p.mode = "source" ∨ p.mode = "binary" ∨ p.mode = "attach") :=
    not_not_intro hmode
  have hv2 : ¬(p.mode = "attach" ∧ p.processId = 0) := by
    rintro ⟨ha, hz⟩; exact hatt ha hz
  have hv3 : ¬(p.mode ≠ "attach" ∧ p.path = "") := by
    rintro ⟨ha, hz⟩; exact hpath ha hz
  unfold debug
  rw [if_neg hv1, if_neg hv2, if_neg hv3, h1, h2, h3, h4, h5,
    debugBpLoop_ok p.breakpoints env.bpErrs h6, h7]
  by_cases hc : p.breakpoints ≠ [] ∧ ¬p.stopOnEntry
  · simp only [if_pos hc]
    cases henv : env.resumeErr <;> simp [henv, orFail]
  · simp only [if_neg hc]
    simp [orFail]

/-- Count of unavailable-markers in the variables section: one per
failed variables round trip, none for a successful one. -/
theorem renderScopes_count (ss : List Scope) (vouts : List (Option (List VarInfo)))
    (href : ∀ s ∈ ss, s.variablesReference > 0) (hlen : vouts.length = ss.length) :
    (renderScopes ss vouts).2.count OutLine.varsUnavailable = vouts.count none := by
  induction ss generalizing vouts with
  | nil =>
    cases vouts with
    | nil => rfl
    | cons v vt => simp at hlen
  | cons s rest ih =>
    cases vouts with
    | nil => simp at hlen
    | cons v vt =>
      have hs := href s (List.mem_cons_self s rest)
      have hrest : ∀ x ∈ rest, x.variablesReference > 0 := fun x hx =>
        href x (List.mem_cons_of_mem s hx)
      have hlen2 : vt.length = rest.length := by simpa using hlen
      cases v with
      | none =>
        simp only [renderScopes, if_pos hs, List.headD_cons, List.tail_cons]
        rw [List.count_cons_of_ne (by simp), List.count_cons_self,
          List.count_cons_self, ih vt hrest hlen2]
      | some vs =>
        simp only [renderScopes, if_pos hs, List.headD_cons, List.tail_cons]
        rw [List.count_cons_of_ne (by simp), List.count_append,
          List.count_cons_of_ne (by simp), ih vt hrest hlen2,
          List.count_eq_zero.mpr (by simp), zero_add]

/-- A successful variables round trip for the i-th scope puts each of
its variables into the rendered section, whatever happened to the other
scopes. -/
theorem renderScopes_mem_vars (ss : List Scope) (vouts : List (Option (List VarInfo)))
    (i : Nat) (s : Scope) (vs : List VarInfo)
    (hs : ss.get? i = some s) (hv : vouts.get? i = some (some vs))
    (href : s.variablesReference > 0) (v : VarInfo) (hvv : v ∈ vs) :
    OutLine.varLine v.name v.type v.value ∈ (renderScopes ss vouts).2 := by
  induction ss generalizing vouts i with
  | nil => simp at hs
  | cons s0 rest ih =>
    cases vouts with
    | nil => simp at hv
    | cons v0 vt =>
      cases i with
      | zero =>
        have hs0 : s0 = s := by simpa using hs
        have hv0 : v0 = some vs := by simpa using hv
        subst hs0; subst hv0
        simp only [renderScopes, if_pos href, List.headD_cons, List.tail_cons]
        exact List.mem_cons_of_mem _ (List.mem_append_left _
          (List.mem_map.mpr ⟨v, hvv, rfl⟩))
      | succ n =>
        have hs2 : rest.get? n = some s := by simpa using hs
        have hv2 : vt.get? n = some (some vs) := by simpa using hv
        have hrec := ih vt n hs2 hv2
        by_cases h0 : s0.variablesReference > 0
        · cases hv0 : v0 with
          | none =>
            simp only [renderScopes, if_pos h0, hv0, List.headD_cons, List.tail_cons]
            exact List.mem_cons_of_mem _ (List.mem_cons_of_mem _ hrec)
          | some ws =>
            simp only [renderScopes, if_pos h0, hv0, List.headD_cons, List.tail_cons]
            exact List.mem_cons_of_mem _ (List.mem_append_right _ hrec)
        · simp only [renderScopes, if_neg h0, List.tail_cons]
          exact List.mem_cons_of_mem _ hrec


/-- An idle session: nothing stored. -/
def dsIdle : DebuggerSession := ⟨none, false, "", "", []⟩

/-- A live session: a started dlv subprocess, a connected client, and
stored launch data. -/
def dsLive : DebuggerSession := ⟨some ⟨7, true⟩, true, "binary", "/old/prog", ["world"]⟩

/-- A debug environment in which every wire step succeeds. -/
def envAllOk : DebugEnv := ⟨8, none, none, none, none, none, [], none, none⟩

theorem isResume_debugLaunchAction (p : DebugParams) :
    isResume (debugLaunchAction p) = false := by
  unfold debugLaunchAction
  split_ifs <;> rfl

theorem isResume_spawnDlv (i : Nat) (s : String) :
    isResume (Action.spawnDlv i s) = false := rfl

theorem isResume_connectClient (s : String) :
    isResume (Action.connectClient s) = false := rfl

theorem isResume_handshake : isResume Action.handshake = false := rfl

theorem isResume_configurationDone :
    isResume Action.configurationDone = false := rfl

theorem isResume_resume (t : Int) : isResume (Action.resume t) = true := rfl

theorem countP_isResume_bpLoopActions (bps : List BreakpointSpec) :
    (bpLoopActions bps).countP isResume = 0 := by
  rw [List.countP_eq_zero]
  intro a ha
  rcases mem_bpLoopActions bps a ha with ⟨bp, _, rfl⟩ | ⟨bp, _, _, _, rfl⟩ <;>
    simp [isResume]

theorem applyAction_launch (t : String → List Int) (p : DebugParams) :
    applyAction t (debugLaunchAction p) = t := by
  unfold debugLaunchAction
  split_ifs <;> rfl

/-- C8: a debug call with an invalid mode, with attach mode and no
processId, or with source/binary mode and no path, is rejected before
any I/O: it returns a validation error with an empty action trace (no
subprocess spawned, no connection opened) and the stored session state
unchanged. -/
theorem c8_debug_validation (ds : DebuggerSession) (p : DebugParams) (env : DebugEnv) :
    (¬(p.mode = "source" ∨ p.mode = "binary" ∨ p.mode = "attach") →
      debug ds p env = (ds, [], Result.err ("invalid mode: " ++ p.mode ++
        " (must be source, binary, or attach)"))) ∧
    (p.mode = "attach" → p.processId = 0 →
      debug ds p env = (ds, [], Result.err "processId is required for attach mode")) ∧
    ((p.mode = "source" ∨ p.mode = "binary") → p.path = "" →
      debug ds p env = (ds, [], Result.err ("path is required for " ++ p.mode ++ " mode"))) := by
  obtain ⟨mode, path, args, pid, bps, soe, port⟩ := p
  refine ⟨fun h => ?_, fun ha hz => ?_, fun hm hp => ?_⟩
  · unfold debug
    rw [if_pos h]
  · subst ha; subst hz
    simp [debug]
  · rcases hm with rfl | rfl <;> subst hp <;> simp [debug]

/-- Witness for C8 at three concrete invalid parameter sets. -/
theorem c8_witness :
    debug dsIdle ⟨"bogus", "/p", [], 0, [], false, ""⟩ envAllOk =
      (dsIdle, [], Result.err "invalid mode: bogus (must be source, binary, or attach)") ∧
    debug dsIdle ⟨"attach", "", [], 0, [], false, ""⟩ envAllOk =
      (dsIdle, [], Result.err "processId is required for attach mode") ∧
    debug dsIdle ⟨"source", "", [], 0, [], false, ""⟩ envAllOk =
      (dsIdle, [], Result.err "path is required for source mode") :=
  ⟨(c8_debug_validation dsIdle ⟨"bogus", "/p", [], 0, [], false, ""⟩ envAllOk).1 (by decide),
   (c8_debug_validation dsIdle ⟨"attach", "", [], 0, [], false, ""⟩ envAllOk).2.1 rfl rfl,
   (c8_debug_validation dsIdle ⟨"source", "", [], 0, [], false, ""⟩ envAllOk).2.2 (Or.inl rfl) rfl⟩

/-- C5: on a successful debug call: when at least one breakpoint was
supplied and stopOnEntry is false the handler issues exactly one
resume, awaits the Stopped/Terminated event, and returns the full
context snapshot (thread 1, frame 0, 20 frames); when stopOnEntry is
true or no breakpoints were supplied it issues no resume and returns
the lightweight status message. -/
theorem c5_debug_resume_policy (ds : DebuggerSession) (p : DebugParams) (env : DebugEnv)
    (hmode : p.mode = "source" ∨ p.mode = "binary" ∨ p.mode = "attach")
    (hatt : p.mode = "attach" → p.processId ≠ 0)
    (hpath : p.mode ≠ "attach" → p.path ≠ "")
    (h1 : env.stdoutPipeErr = none) (h2 : env.startErr = none)
    (h3 : env.readyErr = none) (h4 : env.handshakeErr = none)
    (h5 : env.launchErr = none)
    (h6 : ∀ e ∈ env.bpErrs, e = none)
    (h7 : env.configErr = none) (h8 : env.resumeErr = none) :
    (p.breakpoints ≠ [] ∧ ¬p.stopOnEntry →
      (debug ds p env).2.2 = Result.fullContext 1 0 20 ∧
      (debug ds p env).2.1.countP isResume = 1) ∧
    (p.breakpoints = [] ∨ p.stopOnEntry →
      (debug ds p env).2.2 = Result.ok ("Debug session started for " ++ p.path ++
        ". Use breakpoint to set breakpoints and continue to run.") ∧
      (debug ds p env).2.1.countP isResume = 0) := by
  rw [debug_ok_shape ds p env hmode hatt hpath h1 h2 h3 h4 h5 h6 h7]
  constructor
  · intro hb
    refine ⟨by simp [hb, h8], ?_⟩
    simp [hb, List.countP_cons, List.countP_append,
      countP_isResume_bpLoopActions, isResume_debugLaunchAction,
      isResume_spawnDlv, isResume_connectClient, isResume_handshake,
      isResume_configurationDone, isResume_resume]
  · intro hb
    have hc : ¬(p.breakpoints ≠ [] ∧ ¬p.stopOnEntry = true) := by
      rcases hb with h | h <;> simp [h]
    rw [if_neg hc, if_neg hc]
    refine ⟨rfl, ?_⟩
    simp [List.countP_cons, List.countP_append,
      countP_isResume_bpLoopActions, isResume_debugLaunchAction,
      isResume_spawnDlv, isResume_connectClient, isResume_handshake,
      isResume_configurationDone]

/-- Witness for C5: one breakpoint and stopOnEntry false gives one
resume and a snapshot; no breakpoints gives no resume and the status
text. -/
theorem c5_witness :
    (debug dsIdle ⟨"binary", "/p", [], 0, [⟨"m.go", 9, ""⟩], false, ""⟩ envAllOk).2.2 =
      Result.fullContext 1 0 20 ∧
    (debug dsIdle ⟨"binary", "/p", [], 0, [⟨"m.go", 9, ""⟩], false, ""⟩ envAllOk).2.1.countP
      isResume = 1 ∧
    (debug dsIdle ⟨"binary", "/p", [], 0, [], false, ""⟩ envAllOk).2.2 =
      Result.ok "Debug session started for /p. Use breakpoint to set breakpoints and continue to run." ∧
    (debug dsIdle ⟨"binary", "/p", [], 0, [], false, ""⟩ envAllOk).2.1.countP
      isResume = 0 := by
  have ha := (c5_debug_resume_policy dsIdle ⟨"binary", "/p", [], 0, [⟨"m.go", 9, ""⟩], false, ""⟩
    envAllOk (Or.inr (Or.inl rfl)) (fun h => absurd h (by decide)) (fun _ => by decide)
    rfl rfl rfl rfl rfl (by decide) rfl rfl).1 (by decide)
  have hb := (c5_debug_resume_policy dsIdle ⟨"binary", "/p", [], 0, [], false, ""⟩
    envAllOk (Or.inr (Or.inl rfl)) (fun h => absurd h (by decide)) (fun _ => by decide)
    rfl rfl rfl rfl rfl (by decide) rfl rfl).2 (Or.inl rfl)
  exact ⟨ha.1, ha.2, hb.1, hb.2⟩

/-- C1 (code bug in `debug`): called while a session is live — the
stored subprocess ⟨7⟩ is running and the client connected — with valid
parameters, the handler performs no terminate, disconnect or kill,
returns success, and overwrites the stored subprocess handle (now the
fresh ⟨8⟩) and client: the old subprocess is silently leaked instead of
being stopped first or the request rejected. -/
theorem c1_debug_leaks_active_session :
    dsLive.cmd = some ⟨7, true⟩ ∧ dsLive.client = true ∧
    (debug dsLive ⟨"binary", "/new/prog", [], 0, [], false, ""⟩ envAllOk).2.1.filter
      isTeardown = [] ∧
    (debug dsLive ⟨"binary", "/new/prog", [], 0, [], false, ""⟩ envAllOk).2.2 =
      Result.ok ("Debug session started for /new/prog. Use breakpoint to set breakpoints and continue to run.") ∧
    (debug dsLive ⟨"binary", "/new/prog", [], 0, [], false, ""⟩ envAllOk).1.cmd =
      some ⟨8, true⟩ ∧
    some (Subproc.mk 8 true) ≠ some (Subproc.mk 7 true) := by
  refine ⟨rfl, rfl, rfl, rfl, rfl, by decide⟩

/-- C2 (amended): clear-breakpoints with all=true sends exactly one
request, re-setting the function-breakpoint table to empty; it sends no
per-file set-breakpoints request, so every file table is left exactly
as it was.  Clearing a single file F re-sets F's table to the empty
list. -/
theorem c2_clear_semantics (ds : DebuggerSession) (p : ClearBreakpointsParams)
    (fe1 fe2 : Option String) (hcl : ds.client = true) :
    (p.all = true → fe1 = none →
      clearBreakpoints ds p fe1 fe2 =
        (ds, [Action.setFunctionBreakpoints []], Result.ok "Cleared all breakpoints")) ∧
    (p.all = true → ∀ (t : String → List Int) (f : String),
      applyTrace t (clearBreakpoints ds p fe1 fe2).2.1 f = t f) ∧
    (p.all = false → p.file ≠ "" → fe2 = none →
      clearBreakpoints ds p fe1 fe2 =
        (ds, [Action.setBreakpoints p.file []],
         Result.ok ("Cleared breakpoints in: " ++ p.file))) := by
  refine ⟨fun ha he => ?_, fun ha t f => ?_, fun ha hf he => ?_⟩
  · subst he
    simp [clearBreakpoints, hcl, ha, orFail]
  · cases fe1 with
    | none => simp [clearBreakpoints, hcl, ha, orFail, applyTrace, applyAction]
    | some m => simp [clearBreakpoints, hcl, ha, orFail, applyTrace, applyAction]
  · subst he
    simp [clearBreakpoints, hcl, ha, hf, orFail]

/-- C2 counterexample: a clear-all call while file main.go has a
breakpoint at line 5 in its table: the trace re-sets only the function
table, and main.go's table is left at [5], not re-set to empty as the
claim states. -/
theorem c2_counterexample :
    (clearBreakpoints dsLive ⟨"", true⟩ none none).2.1 =
      [Action.setFunctionBreakpoints []] ∧
    applyTrace (fun f => if f = "main.go" then [5] else [])
      (clearBreakpoints dsLive ⟨"", true⟩ none none).2.1 "main.go" = [5] ∧
    ([5] : List Int) ≠ [] := by
  refine ⟨rfl, rfl, by decide⟩

/-- Witness for C2 at concrete inputs: the all=true call and the
single-file call. -/
theorem c2_witness :
    clearBreakpoints dsLive ⟨"", true⟩ none none =
      (dsLive, [Action.setFunctionBreakpoints []], Result.ok "Cleared all breakpoints") ∧
    applyTrace (fun _ => [9]) (clearBreakpoints dsLive ⟨"", true⟩ none none).2.1
      "app.go" = [9] ∧
    clearBreakpoints dsLive ⟨"app.go", false⟩ none none =
      (dsLive, [Action.setBreakpoints "app.go" []],
       Result.ok "Cleared breakpoints in: app.go") := by
  have h := c2_clear_semantics dsLive ⟨"", true⟩ none none rfl
  have h2 := c2_clear_semantics dsLive ⟨"app.go", false⟩ none none rfl
  exact ⟨h.1 rfl rfl, h.2.1 rfl (fun _ => [9]) "app.go", h2.2.2 rfl (by decide) rfl⟩

/-- C3 (amended): restart sends exactly one restart request, whose
payload is the fixed launch/exec/stopOnEntry-false/rebuild-false record
with the caller-supplied args passed through verbatim (the empty list
when omitted); the stored launch mode, program path and program
arguments are not consulted, and the session state is unchanged. -/
theorem c3_restart_payload (ds : DebuggerSession) (p : RestartParams)
    (stepErr : Option String) (hcl : ds.client = true) :
    (restartDebugger ds p stepErr).1 = ds ∧
    (restartDebugger ds p stepErr).2.1 =
      [Action.restartReq ⟨"launch", "exec", false, p.args, false⟩] ∧
    (stepErr = none →
      (restartDebugger ds p stepErr).2.2 = Result.ok "Restarted debugging session") := by
  refine ⟨?_, ?_, fun he => ?_⟩
  · cases stepErr with
    | none => simp [restartDebugger, hcl, orFail]
    | some m => simp [restartDebugger, hcl, orFail]
  · cases stepErr with
    | none => simp [restartDebugger, hcl, orFail]
    | some m => simp [restartDebugger, hcl, orFail]
  · subst he
    simp [restartDebugger, hcl, orFail]

/-- C3 counterexample: a session whose stored launch data is mode
binary with program arguments ["world"]; restart with the args
parameter omitted (a nil slice) sends a payload whose args are [] and
whose mode is exec — the stored arguments (and stored mode) are not
reissued by the operation. -/
theorem c3_counterexample :
    (restartDebugger dsLive ⟨[]⟩ none).2.1 =
      [Action.restartReq ⟨"launch", "exec", false, [], false⟩] ∧
    dsLive.programArgs = ["world"] ∧ ([] : List String) ≠ ["world"] ∧
    dsLive.launchMode = "binary" ∧ ("exec" : String) ≠ "binary" := by
  refine ⟨rfl, rfl, by decide, rfl, by decide⟩

/-- Witness for C3: restart with new args ["me, its me again"] and with
omitted args, against the live session. -/
theorem c3_witness :
    restartDebugger dsLive ⟨["me, its me again"]⟩ none =
      (dsLive, [Action.restartReq ⟨"launch", "exec", false, ["me, its me again"], false⟩],
       Result.ok "Restarted debugging session") ∧
    (restartDebugger dsLive ⟨[]⟩ none).2.1 =
      [Action.restartReq ⟨"launch", "exec", false, [], false⟩] := by
  have h1 := c3_restart_payload dsLive ⟨["me, its me again"]⟩ none rfl
  have h2 := c3_restart_payload dsLive ⟨[]⟩ none rfl
  refine ⟨?_, h2.2.1⟩
  have := h1.2.2 rfl
  exact Prod.ext h1.1 (Prod.ext h1.2.1 this)

/-- C6 (amended): stop never returns an error.  With no subprocess
handle and no client it returns the neutral result and leaves the state
untouched.  Otherwise — whatever the teardown sub-steps do, the
environment being ignored — it clears the client, the launch mode,
program path and program arguments, and clears the subprocess handle
provided the stored subprocess had actually been started; a handle
whose process never started survives the call.  A second consecutive
stop also returns a non-error result. -/
theorem c6_stop_idempotent (ds : DebuggerSession) (env env2 : StopEnv) :
    (ds.cmd = none → ds.client = false →
      stop ds env = (ds, [], Result.ok "No debug session active")) ∧
    (∃ s, (stop ds env).2.2 = Result.ok s) ∧
    ((stop ds env).1.client = false) ∧
    (¬(ds.cmd = none ∧ ds.client = false) →
      (stop ds env).1.launchMode = "" ∧ (stop ds env).1.programPath = "" ∧
      (stop ds env).1.programArgs = [] ∧
      ((∀ c, ds.cmd = some c → c.procStarted = true) → (stop ds env).1.cmd = none)) ∧
    (∃ s, (stop (stop ds env).1 env2).2.2 = Result.ok s) := by
  obtain ⟨cmd, client, lm, pp, pa⟩ := ds
  rcases cmd with _ | ⟨cid, cst⟩
  · cases client
    · exact ⟨fun _ _ => rfl, ⟨"No debug session active", rfl⟩, rfl,
        fun hcon => absurd ⟨rfl, rfl⟩ hcon, ⟨"No debug session active", rfl⟩⟩
    · exact ⟨(fun _ h => nomatch h), ⟨"Debug session stopped", rfl⟩, rfl,
        fun _ => ⟨rfl, rfl, rfl, fun _ => rfl⟩, ⟨"No debug session active", rfl⟩⟩
  · cases client
    · cases cst
      · exact ⟨(fun h _ => nomatch h), ⟨"Debug session stopped", rfl⟩, rfl,
          fun _ => ⟨rfl, rfl, rfl, (fun hall => nomatch hall ⟨cid, false⟩ rfl)⟩,
          ⟨"Debug session stopped", rfl⟩⟩
      · exact ⟨(fun h _ => nomatch h), ⟨"Debug session stopped", rfl⟩, rfl,
          fun _ => ⟨rfl, rfl, rfl, fun _ => rfl⟩, ⟨"No debug session active", rfl⟩⟩
    · cases cst
      · exact ⟨(fun h _ => nomatch h), ⟨"Debug session stopped", rfl⟩, rfl,
          fun _ => ⟨rfl, rfl, rfl, (fun hall => nomatch hall ⟨cid, false⟩ rfl)⟩,
          ⟨"Debug session stopped", rfl⟩⟩
      · exact ⟨(fun h _ => nomatch h), ⟨"Debug session stopped", rfl⟩, rfl,
          fun _ => ⟨rfl, rfl, rfl, fun _ => rfl⟩, ⟨"No debug session active", rfl⟩⟩

/-- C6 counterexample: a state holding a subprocess handle whose
process never started (exactly what a failed `cmd.Start` in `debug`
leaves behind, as the last conjunct shows): stop returns without error
but does not clear the handle — the claimed "subprocess handle nil
after every stop call" fails here. -/
theorem c6_counterexample :
    (stop ⟨some ⟨5, false⟩, false, "", "", []⟩ ⟨false, false, false⟩).1.cmd =
      some ⟨5, false⟩ ∧
    some (Subproc.mk 5 false) ≠ (none : Option Subproc) ∧
    (stop ⟨some ⟨5, false⟩, false, "", "", []⟩ ⟨false, false, false⟩).2.2 =
      Result.ok "Debug session stopped" ∧
    (debug dsIdle ⟨"binary", "/p", [], 0, [], false, ""⟩
        ⟨5, none, some "fork-exec dlv failed", none, none, none, [], none, none⟩).1 =
      ⟨some ⟨5, false⟩, false, "", "", []⟩ := by
  refine ⟨rfl, by decide, rfl, rfl⟩

/-- Witness for C6: the idle call is neutral; stopping the live session
with every teardown sub-step failing still returns ok, clears the
state, and a second stop is again non-error. -/
theorem c6_witness :
    stop dsIdle ⟨false, false, false⟩ = (dsIdle, [], Result.ok "No debug session active") ∧
    (∃ s, (stop dsLive ⟨true, true, true⟩).2.2 = Result.ok s) ∧
    (stop dsLive ⟨true, true, true⟩).1.client = false ∧
    (stop dsLive ⟨true, true, true⟩).1.cmd = none ∧
    (∃ s, (stop (stop dsLive ⟨true, true, true⟩).1 ⟨false, false, false⟩).2.2 =
      Result.ok s) := by
  have h1 := c6_stop_idempotent dsIdle ⟨false, false, false⟩ ⟨false, false, false⟩
  have h2 := c6_stop_idempotent dsLive ⟨true, true, true⟩ ⟨false, false, false⟩
  refine ⟨h1.1 rfl rfl, h2.2.1, h2.2.2.1, ?_, h2.2.2.2.2⟩
  exact (h2.2.2.2.1 (by decide)).2.2.2 (fun c hc => by cases hc; rfl)

/-- C7 (amended): continue with a `to` target first replaces the
target file's table (or the function table) with just the target — an
ordinary breakpoint, not a one-shot — then issues the one resume and
returns the full snapshot on a Stopped event or the termination notice
on a Terminated event; no request removing the breakpoint is issued,
so after the operation the target is still armed in its table. -/
theorem c7_continue_to (ds : DebuggerSession) (p : ContinueParams)
    (toErr : Option String) (oc : ContOutcome) (t : BreakpointSpec)
    (hcl : ds.client = true) (hto : p.toTarget = some t) (hte : toErr = none) :
    (t.function = "" → t.file ≠ "" → t.line > 0 →
      (continueExecution ds p toErr oc).2.1 =
        [Action.setBreakpoints t.file [t.line], Action.resume p.threadId] ∧
      ∀ tb, applyTrace tb (continueExecution ds p toErr oc).2.1 t.file = [t.line]) ∧
    (t.function ≠ "" →
      (continueExecution ds p toErr oc).2.1 =
        [Action.setFunctionBreakpoints [t.function], Action.resume p.threadId] ∧
      ∀ fb, applyFnTrace fb (continueExecution ds p toErr oc).2.1 = [t.function]) ∧
    (∀ tid, oc = ContOutcome.stopped tid →
      (continueExecution ds p toErr oc).2.2 = Result.fullContext tid 0 20) ∧
    (oc = ContOutcome.terminated →
      (continueExecution ds p toErr oc).2.2 = Result.ok "Program terminated") := by
  subst hte
  refine ⟨fun hf hfi hl => ?_, fun hf => ?_, fun tid hoc => ?_, fun hoc => ?_⟩
  · cases oc <;>
      simp [continueExecution, hcl, hto, hf, hfi, hl, applyTrace, applyAction]
  · cases oc <;>
      simp [continueExecution, hcl, hto, hf, applyFnTrace, applyFnAction]
  · subst hoc
    simp [continueExecution, hcl, hto]
  · subst hoc
    simp [continueExecution, hcl, hto]

/-- C7 counterexample: run-to m.go:5 on the live session, stopping
there: the issued requests are the one set-breakpoints and the resume —
no removal follows, and folding the replace-on-set table over the whole
operation leaves m.go ↦ [5] still armed, refuting the one-shot claim. -/
theorem c7_counterexample :
    (continueExecution dsLive ⟨0, some ⟨"m.go", 5, ""⟩⟩ none
      (ContOutcome.stopped 1)).2.1 =
      [Action.setBreakpoints "m.go" [5], Action.resume 0] ∧
    applyTrace (fun _ => []) (continueExecution dsLive ⟨0, some ⟨"m.go", 5, ""⟩⟩ none
      (ContOutcome.stopped 1)).2.1 "m.go" = [5] ∧
    ([5] : List Int) ≠ [] := by
  refine ⟨rfl, rfl, by decide⟩

/-- Witness for C7: the file target and the function target, with the
stopped and the terminated outcome. -/
theorem c7_witness :
    (continueExecution dsLive ⟨0, some ⟨"m.go", 5, ""⟩⟩ none
      (ContOutcome.stopped 1)).2.1 =
      [Action.setBreakpoints "m.go" [5], Action.resume 0] ∧
    applyTrace (fun _ => []) (continueExecution dsLive ⟨0, some ⟨"m.go", 5, ""⟩⟩ none
      (ContOutcome.stopped 1)).2.1 "m.go" = [5] ∧
    (continueExecution dsLive ⟨0, some ⟨"m.go", 5, ""⟩⟩ none
      (ContOutcome.stopped 1)).2.2 = Result.fullContext 1 0 20 ∧
    (continueExecution dsLive ⟨0, some ⟨"", 0, "main.run"⟩⟩ none
      ContOutcome.terminated).2.1 =
      [Action.setFunctionBreakpoints ["main.run"], Action.resume 0] ∧
    (continueExecution dsLive ⟨0, some ⟨"", 0, "main.run"⟩⟩ none
      ContOutcome.terminated).2.2 = Result.ok "Program terminated" := by
  have h1 := c7_continue_to dsLive ⟨0, some ⟨"m.go", 5, ""⟩⟩ none
    (ContOutcome.stopped 1) ⟨"m.go", 5, ""⟩ rfl rfl rfl
  have h2 := c7_continue_to dsLive ⟨0, some ⟨"", 0, "main.run"⟩⟩ none
    ContOutcome.terminated ⟨"", 0, "main.run"⟩ rfl rfl rfl
  have ha := h1.1 rfl (by decide) (by decide)
  exact ⟨ha.1, ha.2 (fun _ => []), h1.2.2.1 1 rfl, (h2.2.1 (by decide)).1,
    h2.2.2.2 rfl⟩

theorem smallBpReq_debugLaunchAction (p : DebugParams) :
    smallBpReq (debugLaunchAction p) := by
  unfold debugLaunchAction
  split_ifs <;> trivial

theorem applyAction_spawn (t : String → List Int) (i : Nat) (s : String) :
    applyAction t (Action.spawnDlv i s) = t := rfl

theorem applyAction_connect (t : String → List Int) (s : String) :
    applyAction t (Action.connectClient s) = t := rfl

theorem applyAction_handshake (t : String → List Int) :
    applyAction t Action.handshake = t := rfl

/-- C10: every file set-breakpoints request this server issues carries
at most one line — across debug, the breakpoint tool, clear-breakpoints
and continue, whatever the outcomes; the breakpoint tool's file path
sends exactly the one requested line; and since each of debug's
per-breakpoint requests carries only its own line, replaying the
replace-on-set table over a successful debug run with several initial
breakpoints in one file leaves exactly the last one armed. -/
theorem c10_single_line_requests :
    (∀ ds p env a, a ∈ (debug ds p env).2.1 → smallBpReq a) ∧
    (∀ ds p fe w a, a ∈ (breakpoint ds p fe w).2.1 → smallBpReq a) ∧
    (∀ ds p fe1 fe2 a, a ∈ (clearBreakpoints ds p fe1 fe2).2.1 → smallBpReq a) ∧
    (∀ ds p te oc a, a ∈ (continueExecution ds p te oc).2.1 → smallBpReq a) ∧
    (∀ ds p fe w, ds.client = true → p.function = "" → p.file ≠ "" → p.line ≠ 0 →
      (breakpoint ds p fe w).2.1 = [Action.setBreakpoints p.file [p.line]]) ∧
    (∀ ds p env F t, F ≠ "" →
      (∀ bp ∈ p.breakpoints, bp.function = "" ∧ bp.file = F ∧ bp.line > 0) →
      p.breakpoints ≠ [] →
      (p.mode = "source" ∨ p.mode = "binary" ∨ p.mode = "attach") →
      (p.mode = "attach" → p.processId ≠ 0) →
      (p.mode ≠ "attach" → p.path ≠ "") →
      env.stdoutPipeErr = none → env.startErr = none → env.readyErr = none →
      env.handshakeErr = none → env.launchErr = none →
      (∀ e ∈ env.bpErrs, e = none) → env.configErr = none →
      applyTrace t (debug ds p env).2.1 F =
        [(p.breakpoints.getLastD ⟨"", 0, ""⟩).line]) := by
  refine ⟨?_, ?_, ?_, ?_, ?_, ?_⟩
  · intro ds p env a ha
    rcases debug_trace_mem ds p env a ha with
      rfl | rfl | rfl | rfl | h | rfl | rfl
    · trivial
    · trivial
    · trivial
    · exact smallBpReq_debugLaunchAction p
    · rcases mem_debugBpLoop p.breakpoints env.bpErrs a h with
        ⟨bp, _, rfl⟩ | ⟨bp, _, _, _, rfl⟩
      · trivial
      · simp [smallBpReq]
    · trivial
    · trivial
  · intro ds p fe w a ha
    unfold breakpoint at ha
    split_ifs at ha
    · simp at ha
    · rcases mem_orFail ha with h | h <;>
        (simp only [List.mem_singleton] at h; subst h; trivial)
    · simp at ha
    · cases w with
      | wireErr m =>
        simp only [List.mem_singleton] at ha
        subst ha; simp [smallBpReq]
      | setBpResp bps =>
        rcases bps with _ | ⟨b, rest⟩
        · simp only [List.mem_singleton] at ha
          subst ha; simp [smallBpReq]
        · by_cases hv : b.verified <;>
            (simp only [hv, if_pos, if_neg, List.mem_singleton] at ha;
             first
             | (subst ha; simp [smallBpReq])
             | (simp at ha; subst ha; simp [smallBpReq]))
      | errorResp m =>
        simp only [List.mem_singleton] at ha
        subst ha; simp [smallBpReq]
      | otherMsg =>
        simp only [List.mem_singleton] at ha
        subst ha; simp [smallBpReq]
  · intro ds p fe1 fe2 a ha
    unfold clearBreakpoints at ha
    split_ifs at ha
    · simp at ha
    · rcases mem_orFail ha with h | h <;>
        (simp only [List.mem_singleton] at h; subst h; trivial)
    · rcases mem_orFail ha with h | h <;>
        (simp only [List.mem_singleton] at h; subst h; simp [smallBpReq])
    · simp at ha
  · intro ds p te oc a ha
    obtain ⟨tid, tt⟩ := p
    unfold continueExecution at ha
    split_ifs at ha
    · simp at ha
    · have hsub : ∀ (t : BreakpointSpec) (b : Action),
          b ∈ (if t.function ≠ "" then
            [Action.setFunctionBreakpoints [t.function]]
          else if t.file ≠ "" ∧ t.line > 0 then
            [Action.setBreakpoints t.file [t.line]]
          else []) → smallBpReq b := by
        intro t b hb
        split_ifs at hb
        · simp only [List.mem_singleton] at hb
          subst hb; trivial
        · simp only [List.mem_singleton] at hb
          subst hb; simp [smallBpReq]
        · simp at hb
      rcases tt with _ | t
      · rcases te with _ | m <;> cases oc <;>
          (simp only [List.nil_append, List.mem_singleton] at ha;
           subst ha; trivial)
      · rcases te with _ | m
        · cases oc <;>
            (simp only [List.mem_append, List.mem_singleton] at ha;
             rcases ha with h | rfl
             · exact hsub t a h
             · trivial)
        · exact hsub t a ha
  · intro ds p fe w hcl hf hfi hl
    have h1 : ¬ds.client = false := by simp [hcl]
    have h2 : ¬p.function ≠ "" := by simp [hf]
    have h3 : ¬(p.file = "" ∨ p.line = 0) := by
      rintro (h | h)
      · exact hfi h
      · exact hl h
    unfold breakpoint
    rw [if_neg h1, if_neg h2, if_neg h3]
    cases w with
    | wireErr m => rfl
    | setBpResp bps =>
      rcases bps with _ | ⟨b, rest⟩
      · rfl
      · by_cases hv : b.verified <;> simp [hv]
    | errorResp m => rfl
    | otherMsg => rfl
  · intro ds p env F t hF hall hne hmode hatt hpath h1 h2 h3 h4 h5 h6 h7
    rw [debug_ok_shape ds p env hmode hatt hpath h1 h2 h3 h4 h5 h6 h7]
    simp only [applyTrace, applyAction_spawn, applyAction_connect,
      applyAction_handshake, applyAction_launch]
    rw [applyTrace_append]
    have hrest : ∀ (T : String → List Int),
        applyTrace T (Action.configurationDone ::
          (if p.breakpoints ≠ [] ∧ ¬p.stopOnEntry then [Action.resume 0] else [])) F =
        T F := by
      intro T
      by_cases hc : p.breakpoints ≠ [] ∧ ¬p.stopOnEntry
      · rw [if_pos hc]
        rfl
      · rw [if_neg hc]
        rfl
    rw [hrest]
    exact applyTrace_lastWins F hF p.breakpoints t hall hne

/-- Witness for C10: the breakpoint tool sends exactly line 7; a debug
call supplying m.go:3, m.go:9, m.go:5 leaves only line 5 armed; one of
its requests evaluated against the bound. -/
theorem c10_witness :
    (breakpoint dsLive ⟨"m.go", 7, ""⟩ none
      (BpWireResult.setBpResp [⟨1, true, 7, ""⟩])).2.1 =
      [Action.setBreakpoints "m.go" [7]] ∧
    applyTrace (fun _ => [])
      (debug dsIdle ⟨"binary", "/p", [], 0,
        [⟨"m.go", 3, ""⟩, ⟨"m.go", 9, ""⟩, ⟨"m.go", 5, ""⟩], false, ""⟩ envAllOk).2.1
      "m.go" = [5] ∧
    smallBpReq (Action.setBreakpoints "m.go" [5]) := by
  have h := c10_single_line_requests
  refine ⟨h.2.2.2.2.1 dsLive ⟨"m.go", 7, ""⟩ none
    (BpWireResult.setBpResp [⟨1, true, 7, ""⟩]) rfl rfl (by decide) (by decide),
    ?_, by simp [smallBpReq]⟩
  have h6 := h.2.2.2.2.2 dsIdle ⟨"binary", "/p", [], 0,
    [⟨"m.go", 3, ""⟩, ⟨"m.go", 9, ""⟩, ⟨"m.go", 5, ""⟩], false, ""⟩ envAllOk
    "m.go" (fun _ => []) (by decide) (by decide) (by decide)
    (Or.inr (Or.inl rfl)) (fun hx => absurd hx (by decide)) (fun _ => by decide)
    rfl rfl rfl rfl rfl (by decide) rfl
  exact h6.trans (by decide)

/-- C4: in the snapshot aggregation, a stack-trace failure is fatal to
the whole call (no partial snapshot); an unsuccessful scopes response
still yields a snapshot containing the location and stack sections with
the variables section marked unavailable; and with scopes in hand the
variables section is rendered scope by scope — the unavailable marker
appears exactly once per failed variables round trip, and every
variable of a successful round trip appears, whatever happened to the
sibling scopes. -/
theorem c4_snapshot_degradation (threadID frameID maxFrames : Int) (env : CtxEnv) :
    (∀ e, env.stack = StackOutcome.fatal e →
      (getFullContext true threadID frameID maxFrames env).2 = CtxResult.fatal e) ∧
    (∀ frames m, env.stack = StackOutcome.ok frames →
      env.scopes = ScopesOutcome.respFail m →
      (getFullContext true threadID frameID maxFrames env).2 =
        CtxResult.snapshot (locStackOut frames ++
          [OutLine.variablesHeader, OutLine.scopesUnavailable])) ∧
    (∀ frames ss, env.stack = StackOutcome.ok frames →
      env.scopes = ScopesOutcome.ok ss → ss ≠ [] →
      (∀ s ∈ ss, s.variablesReference > 0) → env.vars.length = ss.length →
      ((getFullContext true threadID frameID maxFrames env).2 =
        CtxResult.snapshot (locStackOut frames ++ OutLine.variablesHeader ::
          (renderScopes ss env.vars).2) ∧
       (renderScopes ss env.vars).2.count OutLine.varsUnavailable =
         env.vars.count none ∧
       (∀ i s vs v, ss.get? i = some s → env.vars.get? i = some (some vs) →
          v ∈ vs →
          OutLine.varLine v.name v.type v.value ∈ (renderScopes ss env.vars).2))) := by
  obtain ⟨stk, scp, vrs⟩ := env
  refine ⟨fun e he => ?_, fun frames m hs hsc => ?_,
    fun frames ss hs hsc hne href hlen => ?_⟩
  · subst he
    rfl
  · subst hs; subst hsc
    rfl
  · subst hs; subst hsc
    rcases ss with _ | ⟨s0, srest⟩
    · exact absurd rfl hne
    · refine ⟨rfl, renderScopes_count _ _ href hlen, ?_⟩
      intro i s vs v hg hv hm
      exact renderScopes_mem_vars _ _ i s vs hg hv
        (href s (List.get?_mem hg)) v hm

/-- Concrete frame list for the C4 witness. -/
def frW : List StackFrame := [⟨1000, "main.main", some "/p/main.go", 15, ""⟩]

/-- Concrete scope list for the C4 witness. -/
def ssW : List Scope := [⟨"Locals", 100⟩, ⟨"Args", 200⟩]

/-- Concrete variables outcomes for the C4 witness: Locals succeeds
with x=10, Args fails. -/
def varsW : List (Option (List VarInfo)) := [some [⟨"x", "int", "10"⟩], none]

/-- Witness for C4: the fatal stack case, the degraded scopes case, and
the mixed per-scope case where only Args is marked unavailable while
Locals still lists x. -/
theorem c4_witness :
    (getFullContext true 1 0 20
      ⟨StackOutcome.fatal "no stack", ScopesOutcome.ok [], []⟩).2 =
      CtxResult.fatal "no stack" ∧
    (getFullContext true 1 0 20
      ⟨StackOutcome.ok frW, ScopesOutcome.respFail "bad", []⟩).2 =
      CtxResult.snapshot (locStackOut frW ++
        [OutLine.variablesHeader, OutLine.scopesUnavailable]) ∧
    (getFullContext true 1 0 20
      ⟨StackOutcome.ok frW, ScopesOutcome.ok ssW, varsW⟩).2 =
      CtxResult.snapshot (locStackOut frW ++ OutLine.variablesHeader ::
        (renderScopes ssW varsW).2) ∧
    (renderScopes ssW varsW).2.count OutLine.varsUnavailable = 1 ∧
    OutLine.varLine "x" "int" "10" ∈ (renderScopes ssW varsW).2 := by
  have h1 := (c4_snapshot_degradation 1 0 20
    ⟨StackOutcome.fatal "no stack", ScopesOutcome.ok [], []⟩).1 "no stack" rfl
  have h2 := (c4_snapshot_degradation 1 0 20
    ⟨StackOutcome.ok frW, ScopesOutcome.respFail "bad", []⟩).2.1 frW "bad" rfl rfl
  have h3 := (c4_snapshot_degradation 1 0 20
    ⟨StackOutcome.ok frW, ScopesOutcome.ok ssW, varsW⟩).2.2 frW ssW rfl rfl
    (by decide) (by decide) (by decide)
  refine ⟨h1, h2, h3.1, h3.2.1.trans (by decide), ?_⟩
  exact h3.2.2 0 ⟨"Locals", 100⟩ [⟨"x", "int", "10"⟩] ⟨"x", "int", "10"⟩
    (by decide) (by decide) (by decide)
